import Mathlib

/-!
Verification of the wings runtime against its design specification.

The definitions below are a shallow embedding of the runtime found in
`src/wings/wings.cpp` and the builtin integer operations found in the
unnamed source part containing `Int_Mod` / `Int_FloorDiv`.  Machine
pointers (`Wg_Obj*`) are modelled as natural-number object identifiers;
a null pointer is `Option.none`.  Stateful C++ code is modelled by
explicit state passing.  Where a C++ loop has no structural bound, an
explicit fuel argument is used and running out of fuel yields `none`;
every theorem about such a function speaks about runs that completed.
-/

set_option maxHeartbeats 1000000

namespace Wings

/-- Object identifiers stand for `Wg_Obj*` pointers; the arena and all
inter-object edges refer to objects through these identifiers. -/
abbrev ObjId := Nat

/-! ### Integer modulo and floor division (`Int_Mod`, `Int_FloorDiv`) -/

/-- Function `Int_Mod`, integer-divisor case (unnamed part, lines 609-628).  The
source computes `wint m = a % mod; if (m < 0) m += mod;` where C++ `%`
is the truncated remainder, i.e. `Int.tmod`.  A zero divisor raises
ZeroDivisionError, modelled as `none`. -/
def Int_Mod (a b : Int) : Option Int :=
  if b = 0 then none
  else
    let m := Int.tmod a b
    some (if m < 0 then m + b else m)

/-- Function `Int_FloorDiv`, integer-divisor case (unnamed part, lines 592-607).
The source computes `(wint)std::floor(a / (double)b)`; with exact
arithmetic that is the floor of the rational quotient, i.e. `Int.fdiv`.
A zero divisor raises ZeroDivisionError, modelled as `none`. -/
def Int_FloorDiv (a b : Int) : Option Int :=
  if b = 0 then none else some (Int.fdiv a b)

/-- C4: the claim asserts `a % b = a - b*floor(a/b)` with the sign of `b`,
in particular `5 % -3 = -1`.  The code disagrees: `Int_Mod 5 (-3)`
evaluates to `2` (and `Int_Mod (-5) (-3)` even yields `-5`, of larger
magnitude than the divisor), while the floored remainder demanded by
the claim is `-1`.  Floor division itself does satisfy the claim at
this input.  So the modulo half of the claim fails on the code. -/
theorem Int_Mod_sign_of_divisor_fails :
    Int_Mod 5 (-3) = some 2 ∧
    (5 : Int) - (-3) * Int.fdiv 5 (-3) = -1 ∧
    Int_Mod 5 (-3) ≠ some ((5 : Int) - (-3) * Int.fdiv 5 (-3)) ∧
    Int_Mod (-5) (-3) = some (-5) ∧
    Int_FloorDiv 5 (-3) = some (-2) := by
  decide

/-! ### Attribute tables and lazy method binding -/

/-- The payload of a Function object that attribute lookup inspects:
its bound `self` slot and its `isMethod` flag. -/
structure FuncData where
  self : Option ObjId
  isMethod : Bool
  deriving DecidableEq

/-- An attribute-table entry: either a Function object (carrying the
fields `Wg_GetAttribute` inspects) or any other object. -/
inductive AttrVal where
  | func : FuncData → AttrVal
  | plain : ObjId → AttrVal
  deriving DecidableEq

/-- Predicate `Wg_IsFunction` on an attribute-table entry. -/
def isFunctionVal : AttrVal → Bool
  | .func _ => true
  | .plain _ => false

/-- Modelled from the spec: the AttributeTable implementation
(`attributetable.cpp`) is not under `src/`.  Per section 4.2 a table is
a local name-to-value map plus an ordered list of parent tables. -/
inductive AttrTable where
  | node : List (String × AttrVal) → List AttrTable → AttrTable

mutual

/-- Modelled from the spec: `AttributeTable::Get` consults the local
map first, then each parent depth-first left-to-right; first hit wins. -/
def attrTableGet : AttrTable → String → Option AttrVal
  | .node locals parents, name =>
    match locals.lookup name with
    | some v => some v
    | none => attrTableGetMany parents name

/-- Modelled from the spec: lookup through an ordered list of parent
tables, first match wins. -/
def attrTableGetMany : List AttrTable → String → Option AttrVal
  | [], _ => none
  | t :: ts, name =>
    match attrTableGet t name with
    | some v => some v
    | none => attrTableGetMany ts name

end

/-- Modelled from the spec: `AttributeTable::GetFromBase` skips the
local map and searches only the parents. -/
def attrTableGetFromBase : AttrTable → String → Option AttrVal
  | .node _ parents, name => attrTableGetMany parents name

/-- Modelled from the spec: `AttributeTable::Copy` clones the local map
and shares the parent list; at the value level the contents are
unchanged. -/
def attrTableCopy : AttrTable → AttrTable
  | .node locals parents => .node locals parents

/-- The lazy-binding step shared verbatim by `Wg_HasAttribute`,
`Wg_GetAttribute` and `Wg_GetAttributeFromBase` (wings.cpp 698-737):
`if (mem && Wg_IsFunction(mem) && mem->Get<Func>().isMethod)
mem->self = obj;`. -/
def bindIfMethod (obj : ObjId) : AttrVal → AttrVal
  | .func f => if f.isMethod then .func { f with self := some obj } else .func f
  | .plain v => .plain v

/-- Function `Wg_HasAttribute` (wings.cpp 698-705): plain lookup, then lazy
method binding; a missing attribute returns null without raising. -/
def wgHasAttribute (obj : ObjId) (table : AttrTable) (member : String) : Option AttrVal :=
  match attrTableGet table member with
  | none => none
  | some mem => some (bindIfMethod obj mem)

/-- The runtime errors the embedded fragments raise. -/
inductive RtErr where
  | typeError (msg : String)
  | attributeError
  | recursionError
  | importError
  deriving DecidableEq

/-- Function `Wg_GetAttribute` (wings.cpp 707-716): like `Wg_HasAttribute` but a
missing attribute raises AttributeError. -/
def wgGetAttribute (obj : ObjId) (table : AttrTable) (member : String) :
    Option AttrVal × Option RtErr :=
  match attrTableGet table member with
  | none => (none, some .attributeError)
  | some mem => (some (bindIfMethod obj mem), none)

/-- Function `Wg_GetAttributeFromBase` (wings.cpp 723-737): with a null
`baseClass` the lookup skips the local table, otherwise it searches the
base class's instance-attribute template; the binding step is the same. -/
def wgGetAttributeFromBase (obj : ObjId) (table : AttrTable) (member : String)
    (baseInstanceAttrs : Option AttrTable) : Option AttrVal :=
  let mem := match baseInstanceAttrs with
    | none => attrTableGetFromBase table member
    | some b => attrTableGet b member
  mem.map (bindIfMethod obj)

/-- C8: every attribute lookup entry point returns the looked-up value
passed through the lazy-binding step, and that step sets `self` to the
receiver exactly on Functions with `isMethod = true`, leaving every
other value unmodified. -/
theorem attribute_lookup_binds_methods (obj : ObjId) (table b : AttrTable) (member : String) :
    wgHasAttribute obj table member = (attrTableGet table member).map (bindIfMethod obj) ∧
    (wgGetAttribute obj table member).1 = (attrTableGet table member).map (bindIfMethod obj) ∧
    wgGetAttributeFromBase obj table member none
      = (attrTableGetFromBase table member).map (bindIfMethod obj) ∧
    wgGetAttributeFromBase obj table member (some b)
      = (attrTableGet b member).map (bindIfMethod obj) ∧
    (∀ f : FuncData, f.isMethod = true →
      bindIfMethod obj (.func f) = .func { f with self := some obj }) ∧
    (∀ f : FuncData, f.isMethod = false → bindIfMethod obj (.func f) = .func f) ∧
    (∀ v : ObjId, bindIfMethod obj (.plain v) = .plain v) := by
  refine ⟨?_, ?_, rfl, rfl, ?_, ?_, fun _ => rfl⟩
  · unfold wgHasAttribute
    cases attrTableGet table member <;> rfl
  · unfold wgGetAttribute
    cases attrTableGet table member <;> rfl
  · intro f hf
    simp [bindIfMethod, hf]
  · intro f hf
    simp [bindIfMethod, hf]

/-- An attribute table used to exercise the lookup entry points on a
concrete method. -/
def exTable8 : AttrTable :=
  .node [("m", .func ⟨none, true⟩), ("p", .plain 3)] []

/-- Witness for C8: at a concrete table holding a method `m` with
`isMethod = true` and no bound self, `Wg_HasAttribute` returns the
function with `self` set to the receiver `7`, and a plain attribute
comes back unmodified. -/
theorem attribute_lookup_binds_methods_witness :
    wgHasAttribute 7 exTable8 "m" = some (.func ⟨some 7, true⟩) ∧
    wgHasAttribute 7 exTable8 "p" = some (.plain 3) := by
  have h := attribute_lookup_binds_methods 7 exTable8 exTable8 "m"
  have h2 := attribute_lookup_binds_methods 7 exTable8 exTable8 "p"
  refine ⟨?_, ?_⟩
  · rw [h.1]
    have hb := h.2.2.2.2.1 ⟨none, true⟩ rfl
    simp [attrTableGet, exTable8, List.lookup] at hb ⊢
    exact hb
  · rw [h2.1]
    simp [attrTableGet, exTable8, List.lookup, bindIfMethod]

/-! ### The call machinery (`Wg_Call`, `Wg_GetKwargs`) -/

/-- A keyword-arguments dictionary key: either a String object or any
other object (what matters to `Wg_Call` is only `Wg_IsString(key)`). -/
inductive KwKey where
  | str (s : String)
  | nonstr (id : ObjId)
  deriving DecidableEq

/-- The kwargs argument of `Wg_Call`: what matters to the validation is
whether the object is a Map (`Wg_IsDictionary`) and, if so, its
entries. -/
inductive KwargsVal where
  | dict (entries : List (KwKey × ObjId))
  | nondict (id : ObjId)
  deriving DecidableEq

/-- A frame of the context's current trace (wings.cpp 887-892 pushes
one with the callee's module and pretty name). -/
structure TraceFrame where
  module : String
  prettyName : String
  deriving DecidableEq

/-- The slice of `Wg_Context` read and written by `Wg_Call`:
the trace stack, the current-module stack, the kwargs stack, the
function-userdata stack, the current exception, and the configured
`maxRecursion`. -/
structure CallCtx where
  currentTrace : List TraceFrame
  currentModule : List String
  kwargs : List (Option KwargsVal)
  userdata : List ObjId
  currentException : Option RtErr
  maxRecursion : Nat
  deriving DecidableEq

/-- The callable argument of `Wg_Call`: a Function (with its optional
bound self, home module and pretty name), a Class (with its module), or
any other object, which `Wg_Call` forwards to `__call__`. -/
inductive Callable where
  | func (self : Option ObjId) (module : String) (prettyName : String)
  | cls (module : String)
  | other (id : ObjId)

/-- Whether a kwargs dictionary holds a key that is not a String; the
source raises TypeError at the first such key (wings.cpp 862-867). -/
def hasNonStringKey (entries : List (KwKey × ObjId)) : Bool :=
  entries.any fun e => match e.1 with
    | .nonstr _ => true
    | .str _ => false

/-- The state in which the callee body runs (wings.cpp 887-908): push a
trace frame when the callable is a function, push the callee's module,
userdata and the kwargs argument. -/
def calleeEntryState (callable : Callable) (ud : ObjId) (kwargsDict : Option KwargsVal)
    (st : CallCtx) : CallCtx :=
  match callable with
  | .func _ module prettyName =>
    { st with
      currentTrace := st.currentTrace ++ [⟨module, prettyName⟩]
      currentModule := module :: st.currentModule
      userdata := st.userdata ++ [ud]
      kwargs := st.kwargs ++ [kwargsDict] }
  | .cls module =>
    { st with
      currentModule := module :: st.currentModule
      userdata := st.userdata ++ [ud]
      kwargs := st.kwargs ++ [kwargsDict] }
  | .other _ => st

/-- The state after the callee returns (wings.cpp 910-916): pop the
kwargs, userdata and module stacks, and pop the trace frame when the
callable is a function. -/
def callExitState (callable : Callable) (st : CallCtx) : CallCtx :=
  match callable with
  | .func _ _ _ =>
    { st with
      currentTrace := st.currentTrace.dropLast
      currentModule := st.currentModule.tail
      userdata := st.userdata.dropLast
      kwargs := st.kwargs.dropLast }
  | .cls _ =>
    { st with
      currentModule := st.currentModule.tail
      userdata := st.userdata.dropLast
      kwargs := st.kwargs.dropLast }
  | .other _ => st

/-- The argument vector the callee receives: a bound self is prepended
(wings.cpp 899-904). -/
def argsWithSelf (callable : Callable) (args : List ObjId) : List ObjId :=
  match callable with
  | .func (some s) _ _ => s :: args
  | _ => args

/-- The invocation part of `Wg_Call` (wings.cpp 870-918), run once the
kwargs argument has been validated: enter the callee state, run the
callee body `fptr`, and restore the stacks. -/
def wgCallInvoke (fptr : CallCtx → List ObjId → Option ObjId × CallCtx)
    (callable : Callable) (ud : ObjId) (args : List ObjId)
    (kwargsDict : Option KwargsVal) (st : CallCtx) : Option ObjId × CallCtx :=
  let entry := calleeEntryState callable ud kwargsDict st
  let (ret, st') := fptr entry (argsWithSelf callable args)
  (ret, callExitState callable st')

/-- The TypeError raised when the kwargs argument is not a Map
(wings.cpp 859). -/
def kwargsNotDictErr : RtErr := .typeError "Keyword arguments must be a dictionary"

/-- The TypeError raised when the kwargs Map holds a non-String key
(wings.cpp 864). -/
def kwargsBadKeyErr : RtErr :=
  .typeError "Keyword arguments dictionary must only contain string keys"

/-- Function `Wg_Call` (wings.cpp 847-922).  For a Function or Class callable the
kwargs argument, when supplied, must be a Map with only String keys,
else TypeError is raised and null returned before the callee runs; any
other callable is forwarded to `__call__` by `Wg_CallMethod` without
the kwargs argument (`dunderCall` models that dispatch).  Raising an
exception is modelled as storing its tag in the context. -/
def wgCall (fptr : CallCtx → List ObjId → Option ObjId × CallCtx)
    (dunderCall : CallCtx → Option ObjId × CallCtx)
    (callable : Callable) (ud : ObjId) (args : List ObjId)
    (kwargsDict : Option KwargsVal) (st : CallCtx) : Option ObjId × CallCtx :=
  match callable with
  | .other _ => dunderCall st
  | _ =>
    match kwargsDict with
    | some (.nondict _) =>
      (none, { st with currentException := some kwargsNotDictErr })
    | some (.dict entries) =>
      if hasNonStringKey entries then
        (none, { st with currentException := some kwargsBadKeyErr })
      else
        wgCallInvoke fptr callable ud args kwargsDict st
    | none => wgCallInvoke fptr callable ud args kwargsDict st

/-- Function `Wg_GetKwargs` (wings.cpp 834-840): the back of the kwargs stack,
materializing an empty dictionary when the entry is null; an empty
stack fails the source's assertion, modelled as `none`. -/
def wgGetKwargs (st : CallCtx) : Option KwargsVal :=
  match st.kwargs.getLast? with
  | none => none
  | some none => some (.dict [])
  | some (some k) => some k

/-- C6 counterexample: the kwargs validation sits inside the
Function-or-Class branch of `Wg_Call`; for any other callable the call
is forwarded to `__call__` and the supplied kwargs argument — here not
even a Map — is silently dropped: no TypeError is raised and the callee
runs.  The claim, which demands TypeError for every call through
`Wg_Call` with a non-Map kwargs, is therefore false as stated. -/
theorem wgCall_other_callable_drops_kwargs :
    wgCall (fun s _ => (none, s)) (fun s => (some 99, s))
        (.other 5) 0 [] (some (.nondict 4))
        ⟨[], ["__main__"], [], [], none, 100⟩
      = (some 99, ⟨[], ["__main__"], [], [], none, 100⟩) ∧
    (wgCall (fun s _ => (none, s)) (fun s => (some 99, s))
        (.other 5) 0 [] (some (.nondict 4))
        ⟨[], ["__main__"], [], [], none, 100⟩).2.currentException = none := by
  exact ⟨rfl, rfl⟩

/-- C6 (amended to Function and Class callables): for a callable that is
a Function or a Class, a supplied kwargs argument that is not a Map, or
a Map with a non-String key, makes `Wg_Call` raise TypeError and return
null without invoking the callee (the result does not depend on the
callee body); a valid kwargs Map reaches the callee, whose entry state
reports exactly that Map through `Wg_GetKwargs`. -/
theorem wgCall_validates_kwargs
    (fptr fptr' : CallCtx → List ObjId → Option ObjId × CallCtx)
    (dunderCall : CallCtx → Option ObjId × CallCtx)
    (callable : Callable) (ud x : ObjId) (args : List ObjId) (st : CallCtx)
    (entries : List (KwKey × ObjId))
    (hkind : (match callable with | .other _ => False | _ => True)) :
    (wgCall fptr dunderCall callable ud args (some (.nondict x)) st
      = (none, { st with currentException := some kwargsNotDictErr })) ∧
    (hasNonStringKey entries = true →
      wgCall fptr dunderCall callable ud args (some (.dict entries)) st
        = (none, { st with currentException := some kwargsBadKeyErr }) ∧
      wgCall fptr dunderCall callable ud args (some (.dict entries)) st
        = wgCall fptr' dunderCall callable ud args (some (.dict entries)) st) ∧
    (hasNonStringKey entries = false →
      wgCall fptr dunderCall callable ud args (some (.dict entries)) st
        = wgCallInvoke fptr callable ud args (some (.dict entries)) st ∧
      wgGetKwargs (calleeEntryState callable ud (some (.dict entries)) st)
        = some (.dict entries)) := by
  cases callable with
  | other id => exact absurd hkind not_false
  | func self module prettyName =>
    refine ⟨rfl, fun h => ?_, fun h => ?_⟩
    · constructor <;> simp [wgCall, h]
    · refine ⟨by simp [wgCall, h], ?_⟩
      simp [wgGetKwargs, calleeEntryState]
  | cls module =>
    refine ⟨rfl, fun h => ?_, fun h => ?_⟩
    · constructor <;> simp [wgCall, h]
    · refine ⟨by simp [wgCall, h], ?_⟩
      simp [wgGetKwargs, calleeEntryState]

/-- Witness for the amended C6: a concrete function call with a kwargs
Map holding a non-String key raises TypeError without running the
callee, while the same call with a String-keyed Map reaches the callee
and `Wg_GetKwargs` observes that Map. -/
theorem wgCall_validates_kwargs_witness :
    (wgCall (fun s _ => (some 1, s)) (fun s => (none, s))
        (.func none "m" "f") 0 [] (some (.dict [(.nonstr 9, 2)]))
        ⟨[], ["__main__"], [], [], none, 100⟩
      = (none, ⟨[], ["__main__"], [], [], some kwargsBadKeyErr, 100⟩)) ∧
    wgGetKwargs (calleeEntryState (.func none "m" "f") 0
        (some (.dict [(.str "k", 2)])) ⟨[], ["__main__"], [], [], none, 100⟩)
      = some (.dict [(.str "k", 2)]) := by
  have h := wgCall_validates_kwargs (fun s _ => (some 1, s)) (fun s _ => (some 1, s))
    (fun s => (none, s)) (.func none "m" "f") 0 0 []
    ⟨[], ["__main__"], [], [], none, 100⟩ [(.nonstr 9, 2)] trivial
  have h2 := wgCall_validates_kwargs (fun s _ => (some 1, s)) (fun s _ => (some 1, s))
    (fun s => (none, s)) (.func none "m" "f") 0 0 []
    ⟨[], ["__main__"], [], [], none, 100⟩ [(.str "k", 2)] trivial
  exact ⟨(h.2.1 (by decide)).1, (h2.2.2 (by decide)).2⟩

/-- The context of a deeply nested call: 150 trace frames with the
default `maxRecursion` of 100. -/
def deepCallCtx : CallCtx :=
  ⟨List.replicate 150 ⟨"m", "f"⟩, ["__main__"], [], [], none, 100⟩

/-- C7: `Wg_Call` contains no recursion guard — the claim fails on the
code.  With the trace already 150 frames deep and `maxRecursion = 100`,
the callee is still invoked (the call returns its value) and no
RecursionError is raised; indeed `maxRecursion` is read nowhere in the
call machinery, so the result is identical under any bound. -/
theorem wgCall_missing_recursion_guard :
    (wgCall (fun s _ => (some 42, s)) (fun s => (none, s))
        (.func none "m" "g") 0 [] none deepCallCtx).1 = some 42 ∧
    (wgCall (fun s _ => (some 42, s)) (fun s => (none, s))
        (.func none "m" "g") 0 [] none deepCallCtx).2.currentException = none ∧
    (∀ bound : Nat,
      wgCall (fun s _ => (some 42, s)) (fun s => (none, s))
          (.func none "m" "g") 0 [] none { deepCallCtx with maxRecursion := bound }
        = (some 42, { deepCallCtx with maxRecursion := bound })) := by
  refine ⟨by decide, by decide, fun bound => ?_⟩
  simp [wgCall, wgCallInvoke, calleeEntryState, callExitState, argsWithSelf, deepCallCtx,
    List.dropLast_concat]

/-! ### Instance checks (`Wg_IsInstance`) -/

/-- The part of the object graph that `Wg_IsInstance` consults:
`classOf v` is `v.attributes.Get("__class__")` and `basesOf k` is the
element list of `k`'s `__bases__` attribute when that attribute exists
and is a tuple. -/
structure TypeGraph where
  classOf : ObjId → Option ObjId
  basesOf : ObjId → Option (List ObjId)

/-- The breadth-first loop of `Wg_IsInstance` (wings.cpp 750-765): the
queue front is the list head; the front is compared against the target
types, then its bases are appended at the back and it is popped.  The
source keeps no visited set, so the loop need not terminate on cyclic
base graphs; the fuel bounds the number of iterations and `none` means
the loop was still running. -/
def isInstanceLoop (g : TypeGraph) (targets : List ObjId) :
    Nat → List ObjId → Option (Option ObjId)
  | _, [] => some none
  | 0, _ :: _ => none
  | fuel+1, front :: rest =>
    if front ∈ targets then some (some front)
    else
      match g.basesOf front with
      | some bases => isInstanceLoop g targets fuel (rest ++ bases)
      | none => isInstanceLoop g targets fuel rest

/-- Function `Wg_IsInstance` (wings.cpp 739-767): read the `__class__` attribute
(null means not an instance of anything, returning null), then search
the base graph breadth-first for one of the target classes. -/
def wgIsInstance (g : TypeGraph) (fuel : Nat) (v : ObjId) (targets : List ObjId) :
    Option (Option ObjId) :=
  match g.classOf v with
  | none => some none
  | some k => isInstanceLoop g targets fuel [k]

/-! ### The iteration driver (`Wg_Iterate`) -/

/-- The observable outcome of one `Wg_CallMethod(iter, "__next__")`
call: the returned object (null when the call failed) and the context's
current exception just after the call. -/
structure NextStep where
  yielded : Option ObjId
  excSet : Option ObjId

/-- The inner loop of `Wg_Iterate` (wings.cpp 778-795).  After each
`__next__` call the driver reads the current exception: a StopIteration
instance is cleared and the driver returns true; any other pending
exception makes it return false with the exception left in place.
Otherwise the yielded value goes to the callback, whose result is
modelled as (continue?, exception set by the callback); a false
callback result returns whether no exception is pending.  The result
pairs the return value of `Wg_Iterate` with the final current
exception; `none` means the loop was still running when the recorded
`__next__` behaviors ran out (or an `isInstance` run was cut short). -/
def iterateLoop (g : TypeGraph) (stopIt : ObjId) (ifuel : Nat)
    (callback : ObjId → Bool × Option ObjId) :
    List NextStep → Option (Bool × Option ObjId)
  | [] => none
  | step :: rest =>
    match step.excSet with
    | some e =>
      match wgIsInstance g ifuel e [stopIt] with
      | none => none
      | some (some _) => some (true, none)
      | some none => some (false, some e)
    | none =>
      match step.yielded with
      | none => none
      | some v =>
        let (cont, cbe) := callback v
        if cont then iterateLoop g stopIt ifuel callback rest
        else some (cbe.isNone, cbe)

/-- Function `Wg_Iterate` (wings.cpp 769-796): obtain an iterator through
`__iter__` (`iterResult` models that call: null with `iterExc` pending
on failure), then drive `__next__`. -/
def wgIterate (g : TypeGraph) (stopIt : ObjId) (ifuel : Nat)
    (iterResult : Option ObjId) (iterExc : Option ObjId)
    (callback : ObjId → Bool × Option ObjId) (steps : List NextStep) :
    Option (Bool × Option ObjId) :=
  match iterResult with
  | none => some (false, iterExc)
  | some _ => iterateLoop g stopIt ifuel callback steps

/-- C2: when the `__next__` calls yield values that the callback keeps
accepting and then one call leaves a pending exception `e`, `Wg_Iterate`
returns true with the exception cleared when `e` is a StopIteration
instance, and returns false leaving `e` pending when it is any other
kind of exception. -/
theorem wgIterate_stopiteration_contract
    (g : TypeGraph) (stopIt : ObjId) (ifuel : Nat) (it : ObjId)
    (iterExc y : Option ObjId) (callback : ObjId → Bool × Option ObjId)
    (pre rest : List NextStep) (e : ObjId) (r : Option ObjId)
    (hpre : ∀ s ∈ pre, s.excSet = none ∧
      ∃ v, s.yielded = some v ∧ (callback v).1 = true)
    (hinst : wgIsInstance g ifuel e [stopIt] = some r) :
    wgIterate g stopIt ifuel (some it) iterExc callback (pre ++ ⟨y, some e⟩ :: rest)
      = some (if r.isSome then (true, none) else (false, some e)) := by
  induction pre with
  | nil =>
    show iterateLoop g stopIt ifuel callback (⟨y, some e⟩ :: rest) = _
    simp only [iterateLoop, hinst]
    cases r with
    | none => simp
    | some t => simp
  | cons s pre ih =>
    obtain ⟨hexc, v, hy, hcont⟩ := hpre s (List.mem_cons_self s pre)
    have ih' := ih fun s hs => hpre s (List.mem_cons_of_mem _ hs)
    show iterateLoop g stopIt ifuel callback ((s :: pre) ++ ⟨y, some e⟩ :: rest) = _
    rw [List.cons_append]
    show iterateLoop g stopIt ifuel callback (s :: (pre ++ ⟨y, some e⟩ :: rest)) = _
    rcases hc : callback v with ⟨cont, cbe⟩
    rw [hc] at hcont
    simp only at hcont
    subst hcont
    simp only [iterateLoop, hexc, hy, hc, if_true]
    exact ih'

/-- A two-class graph for the iteration witness: object 10 is a
StopIteration instance (its class is 1 = StopIteration), object 11 is a
ValueError instance (its class is 2, whose only base is 3). -/
def exIterGraph : TypeGraph where
  classOf := fun v => if v = 10 then some 1 else if v = 11 then some 2 else none
  basesOf := fun k => if k = 2 then some [3] else some []

/-- Witness for C2: after one yielded value, a pending StopIteration
instance makes the driver return true with the exception cleared, and a
pending ValueError instance makes it return false with that exception
still pending. -/
theorem wgIterate_stopiteration_contract_witness :
    wgIterate exIterGraph 1 5 (some 20) none (fun _ => (true, none))
        ([⟨some 7, none⟩] ++ ⟨none, some 10⟩ :: [])
      = some (true, none) ∧
    wgIterate exIterGraph 1 5 (some 20) none (fun _ => (true, none))
        ([⟨some 7, none⟩] ++ ⟨none, some 11⟩ :: [])
      = some (false, some 11) := by
  constructor
  · have h := wgIterate_stopiteration_contract exIterGraph 1 5 20 none none
      (fun _ => (true, none)) [⟨some 7, none⟩] [] 10 (some 1)
      (by intro s hs; simp at hs; subst hs; exact ⟨rfl, 7, rfl, rfl⟩)
      (by decide)
    simpa using h
  · have h := wgIterate_stopiteration_contract exIterGraph 1 5 20 none none
      (fun _ => (true, none)) [⟨some 7, none⟩] [] 11 none
      (by intro s hs; simp at hs; subst hs; exact ⟨rfl, 7, rfl, rfl⟩)
      (by decide)
    simpa using h

/-! ### Raising exception objects (`Wg_RaiseExceptionObject`) -/

/-- The slice of `Wg_Context` that `Wg_RaiseExceptionObject` touches:
the class graph (for `Wg_IsInstance`), the `BaseException` builtin, the
current exception with its frozen trace, and the live call trace. -/
structure ExcState where
  graph : TypeGraph
  baseException : ObjId
  currentException : Option ObjId
  exceptionTrace : List TraceFrame
  currentTrace : List TraceFrame

/-- Function `Wg_RaiseExceptionObject` (wings.cpp 1256-1267).  When the value is
a `BaseException` instance it becomes the current exception and the
current trace is snapshotted into the exception trace.  Otherwise the
source raises TypeError through `Wg_RaiseException` /
`Wg_RaiseExceptionClass`, whose instance construction (`Wg_NewString`
plus `Wg_Call` of the TypeError class) is modelled by `mkTypeError`:
it returns the constructed object (or null when construction failed, in
which case some other exception was already set by the failing code)
together with the state after construction; on success the constructed
object is raised recursively.  The outer fuel bounds that recursion and
`none` means a fuel-starved run. -/
def raiseExceptionObject (mkTypeError : ExcState → Option ObjId × ExcState)
    (ifuel : Nat) : Nat → ExcState → ObjId → Option ExcState
  | 0, _, _ => none
  | fuel+1, st, exc =>
    match wgIsInstance st.graph ifuel exc [st.baseException] with
    | none => none
    | some (some _) =>
      some { st with currentException := some exc, exceptionTrace := st.currentTrace }
    | some none =>
      match mkTypeError st with
      | (none, st') => some st'
      | (some e, st') => raiseExceptionObject mkTypeError ifuel fuel st' e

/-- C3: the current exception is set to the raised value `v`, with the
trace snapshotted, exactly when `v` is a `BaseException` instance
(found through `__class__` and the `__bases__` chain); otherwise the
freshly constructed TypeError instance is raised in its place, so the
current exception becomes that TypeError and not `v`. -/
theorem raiseExceptionObject_requires_baseexception
    (mkTypeError : ExcState → Option ObjId × ExcState)
    (ifuel fuel : Nat) (st st' : ExcState) (v e : ObjId) (t : ObjId) :
    (wgIsInstance st.graph ifuel v [st.baseException] = some (some t) →
      raiseExceptionObject mkTypeError ifuel (fuel+1) st v
        = some { st with currentException := some v, exceptionTrace := st.currentTrace }) ∧
    (wgIsInstance st.graph ifuel v [st.baseException] = some none →
      mkTypeError st = (some e, st') →
      wgIsInstance st'.graph ifuel e [st'.baseException] = some (some t) →
      raiseExceptionObject mkTypeError ifuel (fuel+2) st v
        = some { st' with currentException := some e, exceptionTrace := st'.currentTrace } ∧
      (e ≠ v →
        (raiseExceptionObject mkTypeError ifuel (fuel+2) st v).map ExcState.currentException
          ≠ some (some v))) := by
  constructor
  · intro hinst
    simp only [raiseExceptionObject, hinst]
  · intro hinst hmk hinst'
    have hstep : raiseExceptionObject mkTypeError ifuel (fuel+2) st v
        = raiseExceptionObject mkTypeError ifuel (fuel+1) st' e := by
      simp only [raiseExceptionObject, hinst, hmk]
    have hres : raiseExceptionObject mkTypeError ifuel (fuel+1) st' e
        = some { st' with currentException := some e, exceptionTrace := st'.currentTrace } := by
      simp only [raiseExceptionObject, hinst']
    refine ⟨hstep.trans hres, fun hne => ?_⟩
    rw [hstep, hres]
    intro hcontra
    apply hne
    simpa using hcontra

/-- A graph for the raise witness: 0 is the BaseException class; 1 is
the TypeError class with base 0; object 4 is a TypeError instance;
object 2 is an instance of class 3, which does not descend from
BaseException. -/
def exRaiseGraph : TypeGraph where
  classOf := fun v => if v = 4 then some 1 else if v = 2 then some 3 else none
  basesOf := fun k => if k = 1 then some [0] else some []

/-- The exception-machinery state for the raise witness. -/
def exRaiseState : ExcState where
  graph := exRaiseGraph
  baseException := 0
  currentException := none
  exceptionTrace := []
  currentTrace := [⟨"__main__", "f"⟩]

/-- Witness for C3: raising the BaseException instance 4 installs it
with the trace snapshot, while raising the non-exception object 2 makes
the constructed TypeError instance 4 the current exception instead. -/
theorem raiseExceptionObject_requires_baseexception_witness :
    raiseExceptionObject (fun s => (some 4, s)) 5 3 exRaiseState 4
      = some { exRaiseState with
          currentException := some 4, exceptionTrace := [⟨"__main__", "f"⟩] } ∧
    raiseExceptionObject (fun s => (some 4, s)) 5 3 exRaiseState 2
      = some { exRaiseState with
          currentException := some 4, exceptionTrace := [⟨"__main__", "f"⟩] } := by
  have h1 := (raiseExceptionObject_requires_baseexception (fun s => (some 4, s))
    5 2 exRaiseState exRaiseState 4 4 0).1 (by decide)
  have h2 := ((raiseExceptionObject_requires_baseexception (fun s => (some 4, s))
    5 1 exRaiseState exRaiseState 2 4 0).2 (by decide) rfl (by decide)).1
  exact ⟨by simpa [exRaiseState] using h1, by simpa [exRaiseState] using h2⟩

/-! ### The class constructor thunk installed by `Wg_NewClass` -/

/-- The fields of a Class object the constructor thunk reads: its name
and its instance-attribute template. -/
structure ClassData where
  name : String
  instanceAttributes : AttrTable

/-- A freshly constructed instance as the thunk returns it: its type
tag and its attribute table. -/
structure InstanceVal where
  type : String
  attributes : AttrTable

/-- The outcome of the constructor thunk: the instance, or a null
return with some earlier exception pending, or a null return with the
TypeError raised for a non-None `__init__` result. -/
inductive CtorOutcome where
  | ok (inst : InstanceVal)
  | failNull
  | failTypeError

/-- The constructor thunk installed by `Wg_NewClass` (wings.cpp
519-547): allocate an instance (`instId`), set its attribute table to a
copy of the class's instance-attribute template and its type tag to the
class name, then look up `__init__` through `Wg_HasAttribute`; when the
result is a Function, fetch the kwargs object (`kwargsResult` models
`Wg_GetKwargs`, null on failure) and call `__init__` (`initResult`
models that `Wg_Call`, null on failure); a non-None return value
(compared against the None singleton `noneId`) raises TypeError and
the thunk returns null. -/
def classCtor (klass : ClassData) (instId : ObjId)
    (kwargsResult : Option KwargsVal) (initResult : Option ObjId)
    (noneId : ObjId) : CtorOutcome :=
  match wgHasAttribute instId (attrTableCopy klass.instanceAttributes) "__init__" with
  | none => .ok ⟨klass.name, attrTableCopy klass.instanceAttributes⟩
  | some m =>
    if isFunctionVal m then
      match kwargsResult with
      | none => .failNull
      | some _ =>
        match initResult with
        | none => .failNull
        | some ret =>
          if ret ≠ noneId then .failTypeError
          else .ok ⟨klass.name, attrTableCopy klass.instanceAttributes⟩
    else .ok ⟨klass.name, attrTableCopy klass.instanceAttributes⟩

/-- C5: every instance the constructor thunk returns carries the class
name as its type tag and a copy of the class's instance-attribute
template as its attribute table; and when `__init__` resolves to a
Function and its call returns a value other than None, the construction
fails with TypeError instead of returning the instance. -/
theorem classCtor_instance_lifecycle (klass : ClassData) (instId : ObjId)
    (kwargsResult : Option KwargsVal) (initResult : Option ObjId)
    (noneId ret : ObjId) :
    (∀ inst, classCtor klass instId kwargsResult initResult noneId = .ok inst →
      inst.type = klass.name ∧
      inst.attributes = attrTableCopy klass.instanceAttributes) ∧
    (∀ m, wgHasAttribute instId (attrTableCopy klass.instanceAttributes) "__init__" = some m →
      isFunctionVal m = true →
      (∀ k, classCtor klass instId (some k) (some ret) noneId =
        if ret ≠ noneId then .failTypeError
        else .ok ⟨klass.name, attrTableCopy klass.instanceAttributes⟩) ∧
      (ret ≠ noneId → ∀ k,
        classCtor klass instId (some k) (some ret) noneId = .failTypeError)) := by
  constructor
  · intro inst hok
    unfold classCtor at hok
    rcases hget : wgHasAttribute instId (attrTableCopy klass.instanceAttributes) "__init__" with
      _ | m
    · rw [hget] at hok
      simp only at hok
      cases hok
      exact ⟨rfl, rfl⟩
    · rw [hget] at hok
      simp only at hok
      by_cases hfn : isFunctionVal m = true
      · rw [if_pos hfn] at hok
        cases kwargsResult with
        | none => exact absurd hok (by simp)
        | some k =>
          cases initResult with
          | none => exact absurd hok (by simp)
          | some r =>
            simp only at hok
            by_cases hr : r ≠ noneId
            · rw [if_pos hr] at hok
              exact absurd hok (by simp)
            · rw [if_neg hr] at hok
              cases hok
              exact ⟨rfl, rfl⟩
      · rw [if_neg hfn] at hok
        cases hok
        exact ⟨rfl, rfl⟩
  · intro m hget hfn
    refine ⟨fun k => ?_, fun hne k => ?_⟩
    · unfold classCtor
      rw [hget]
      simp [hfn]
    · unfold classCtor
      rw [hget]
      simp [hfn, hne]

/-- A concrete class whose template holds an `__init__` method, for the
constructor witness. -/
def exClass5 : ClassData where
  name := "A"
  instanceAttributes := .node [("__init__", .func ⟨none, true⟩)] []

/-- Witness for C5: constructing an instance of the concrete class with
`__init__` returning the None singleton yields the instance with type
tag "A" and the copied template, while an `__init__` returning object 8
(not None) makes construction fail with TypeError. -/
theorem classCtor_instance_lifecycle_witness :
    classCtor exClass5 5 (some (.dict [])) (some 0) 0
      = .ok ⟨"A", attrTableCopy exClass5.instanceAttributes⟩ ∧
    classCtor exClass5 5 (some (.dict [])) (some 8) 0 = .failTypeError := by
  have h := (classCtor_instance_lifecycle exClass5 5 (some (.dict [])) (some 0) 0 0).2
    (.func ⟨some 5, true⟩)
    (by simp [wgHasAttribute, attrTableGet, attrTableCopy, exClass5, List.lookup, bindIfMethod])
    rfl
  have h2 := (classCtor_instance_lifecycle exClass5 5 (some (.dict [])) (some 8) 0 8).2
    (.func ⟨some 5, true⟩)
    (by simp [wgHasAttribute, attrTableGet, attrTableCopy, exClass5, List.lookup, bindIfMethod])
    rfl
  constructor
  · have := h.1 (.dict [])
    simpa using this
  · exact h2.2 (by decide) (.dict [])

/-! ### The comparison branch of `Wg_BinaryOp` -/

/-- The observable outcome of the comparison/`in` branch of
`Wg_BinaryOp`: a returned object together with the current exception,
or the undefined behavior reached when the branch dereferences the null
result of a failed dunder call. -/
inductive CmpOutcome where
  | returns (v : Option ObjId) (exc : Option RtErr)
  | undefinedNullDeref
  deriving DecidableEq

/-- The comparison/`in` branch of `Wg_BinaryOp` (wings.cpp 1074-1089).
`callResult` and `excAfter` model the outcome of the
`Wg_CallMethod(lhs, method, &rhs, 1)` dunder call: the returned object
(null on failure) and the current exception after the call.  On a null
result the source passes the null pointer to `Wg_IsBool`, whose
`WG_ASSERT(obj)` it violates, and then evaluates `boolResult->context`
to raise TypeError — a null-pointer dereference, modelled as
`undefinedNullDeref`.  A non-Bool result raises TypeError naming the
method; a Bool result is returned as-is. -/
def wgBinaryOpCmp (isBool : ObjId → Bool) (methodName : String)
    (callResult : Option ObjId) (excAfter : Option RtErr) : CmpOutcome :=
  match callResult with
  | none => .undefinedNullDeref
  | some v =>
    if isBool v then .returns (some v) excAfter
    else .returns none (some (.typeError (methodName ++ "() returned a non bool type")))

/-- C9: the claim says a failed dunder call makes `Wg_BinaryOp` return
null leaving the pending exception untouched.  The code instead feeds
the null result to `Wg_IsBool` and dereferences it: at a failed
`__eq__` call with an AttributeError pending the branch reaches
undefined behavior rather than the claimed clean return.  The success
paths do behave as claimed: a non-Bool result raises TypeError and a
Bool result is returned. -/
theorem wgBinaryOpCmp_dereferences_null_result :
    wgBinaryOpCmp (fun v => v = 0) "__eq__" none (some .attributeError)
      = .undefinedNullDeref ∧
    wgBinaryOpCmp (fun v => v = 0) "__eq__" none (some .attributeError)
      ≠ .returns none (some .attributeError) ∧
    wgBinaryOpCmp (fun v => v = 0) "__eq__" (some 1) none
      = .returns none (some (.typeError "__eq__() returned a non bool type")) ∧
    wgBinaryOpCmp (fun v => v = 0) "__eq__" (some 0) none
      = .returns (some 0) none := by
  refine ⟨rfl, by decide, by decide, by decide⟩

/-! ### Module loading (`LoadModule`) -/

/-- Association lookup standing for `std::unordered_map::find` /
`contains` / `at` on string-keyed maps. -/
def assocFind {α : Type} (key : String) : List (String × α) → Option α
  | [] => none
  | (k, v) :: rest => if key = k then some v else assocFind key rest

/-- The slice of `Wg_Context` that `LoadModule` touches: the module
registry (`globals`, one variable table per loaded module) and the
current-module stack. -/
structure ModuleState where
  globals : List (String × List (String × ObjId))
  currentModule : List String

/-- Whether the registry holds an entry for a module
(`context->globals.contains(name)`). -/
def containsModule (st : ModuleState) (name : String) : Bool :=
  (assocFind name st.globals).isSome

/-- Registry insertion, like the standard unordered-map insert a
no-op when the key is already present. -/
def insertModule (st : ModuleState) (name : String) : ModuleState :=
  if containsModule st name then st
  else { st with globals := st.globals ++ [(name, [])] }

/-- Registry erasure of the entry for the module. -/
def eraseModule (st : ModuleState) (name : String) : ModuleState :=
  { st with globals := st.globals.filter fun p => p.1 ≠ name }

/-- Update one module's variable table: overwrite an existing binding
or append a new one (the body of `Wg_SetGlobal`, wings.cpp 143-153). -/
def setGlobalIn (vars : List (String × ObjId)) (name : String) (v : ObjId) :
    List (String × ObjId) :=
  if (assocFind name vars).isSome then
    vars.map fun p => if p.1 = name then (p.1, v) else p
  else vars ++ [(name, v)]

/-- Function `Wg_SetGlobal` (wings.cpp 143-153): bind a name in the variable
table of the module on top of the current-module stack (the update is
written key-preservingly: only the matching module's table changes). -/
def setGlobal (st : ModuleState) (name : String) (v : ObjId) : ModuleState :=
  match st.currentModule with
  | [] => st
  | m :: _ =>
    { st with globals := st.globals.map fun p =>
        (p.1, if p.1 = m then setGlobalIn p.2 name v else p.2) }

/-- Call `Wg_ImportAllFromModule(context, builtins)` as invoked from
`LoadModule` (wings.cpp 197-198): when `__builtins__` is already loaded
its inner `LoadModule` returns immediately and every builtin binding is
copied into the current module with `Wg_SetGlobal`.  The bootstrap
corner where `__builtins__` is itself absent is outside this model and
treated as a no-op. -/
def importAllBuiltinsInto (st : ModuleState) : ModuleState :=
  match assocFind "__builtins__" st.globals with
  | none => st
  | some vars => vars.foldl (fun s p => setGlobal s p.1 p.2) st

/-- The state in which a fresh module's loader runs (wings.cpp
194-198): the registry entry inserted, the name pushed as current
module, and the builtins imported into it (except when loading
`__builtins__` itself). -/
def freshEntryState (st : ModuleState) (name : String) : ModuleState :=
  let st2 := { insertModule st name with
    currentModule := name :: (insertModule st name).currentModule }
  if name ≠ "__builtins__" then importAllBuiltinsInto st2 else st2

/-- Dispatch to the registered loader, or to the file loader covering
`LoadFileModule`'s read-compile-execute chain (wings.cpp 200-205);
each is an arbitrary state transformer returning success. -/
def runLoader (loaders : String → Option (ModuleState → ModuleState × Bool))
    (fileLoad : String → ModuleState → ModuleState × Bool)
    (name : String) (s : ModuleState) : ModuleState × Bool :=
  match loaders name with
  | some loader => loader s
  | none => fileLoad name s

/-- Function `LoadModule` (wings.cpp 191-214).  A name already present in the
registry returns success without running any loader; a fresh name is
inserted, the loader runs, the current-module stack is popped, and on
failure the registry entry is erased. -/
def loadModule (loaders : String → Option (ModuleState → ModuleState × Bool))
    (fileLoad : String → ModuleState → ModuleState × Bool)
    (st : ModuleState) (name : String) : ModuleState × Bool :=
  if containsModule st name then (st, true)
  else
    let run := runLoader loaders fileLoad name (freshEntryState st name)
    let st5 := { run.1 with currentModule := run.1.currentModule.tail }
    if run.2 then (st5, true) else (eraseModule st5 name, false)

/-- Filtering out a key makes its lookup fail. -/
theorem assocFind_filter_ne {α : Type} (l : List (String × α)) (name : String) :
    assocFind name (l.filter fun p => p.1 ≠ name) = none := by
  induction l with
  | nil => rfl
  | cons p rest ih =>
    simp only [ne_eq, decide_not] at ih ⊢
    by_cases hp : p.1 = name
    · simp [List.filter_cons, hp, ih]
    · have hne : ¬ name = p.1 := fun h => hp h.symm
      simp [List.filter_cons, hp, assocFind, hne, ih]

/-- Appending a binding for a key makes its lookup succeed. -/
theorem isSome_assocFind_append {α : Type} (l : List (String × α)) (name : String) (v : α) :
    (assocFind name (l ++ [(name, v)])).isSome = true := by
  induction l with
  | nil => simp [assocFind]
  | cons p rest ih =>
    by_cases hp : name = p.1
    · simp [assocFind, hp]
    · simpa [assocFind, hp] using ih

/-- A key-preserving map leaves lookup success unchanged. -/
theorem isSome_assocFind_map {α : Type} (l : List (String × α)) (g : String × α → α)
    (name : String) :
    (assocFind name (l.map fun p => (p.1, g p))).isSome = (assocFind name l).isSome := by
  induction l with
  | nil => rfl
  | cons p rest ih =>
    by_cases hp : name = p.1
    · simp [assocFind, hp]
    · simpa [assocFind, hp] using ih

/-- Erasing a module removes its registry entry. -/
theorem containsModule_eraseModule (st : ModuleState) (name : String) :
    containsModule (eraseModule st name) name = false := by
  show (assocFind name (st.globals.filter fun p => p.1 ≠ name)).isSome = false
  rw [assocFind_filter_ne]
  rfl

/-- Fresh insertion makes the module present. -/
theorem containsModule_insertModule (st : ModuleState) (name : String) :
    containsModule (insertModule st name) name = true := by
  unfold insertModule
  by_cases h : containsModule st name
  · simp [h]
  · simp only [h, Bool.false_eq_true, if_false]
    exact isSome_assocFind_append st.globals name []

/-- Operation `setGlobal` never changes which modules are present. -/
theorem containsModule_setGlobal (st : ModuleState) (n : String) (v : ObjId) (name : String) :
    containsModule (setGlobal st n v) name = containsModule st name := by
  unfold setGlobal
  cases st.currentModule with
  | nil => rfl
  | cons m rest =>
    exact isSome_assocFind_map st.globals
      (fun p => if p.1 = m then setGlobalIn p.2 n v else p.2) name

/-- Operation `importAllBuiltinsInto` never changes which modules are present. -/
theorem containsModule_importAllBuiltinsInto (st : ModuleState) (name : String) :
    containsModule (importAllBuiltinsInto st) name = containsModule st name := by
  unfold importAllBuiltinsInto
  cases hl : assocFind "__builtins__" st.globals with
  | none => rfl
  | some vars =>
    clear hl
    induction vars generalizing st with
    | nil => rfl
    | cons p ps ih =>
      simp only [List.foldl]
      rw [ih, containsModule_setGlobal]

/-- The loader of a fresh module starts with the module's registry
entry present. -/
theorem containsModule_freshEntryState (st : ModuleState) (name : String) :
    containsModule (freshEntryState st name) name = true := by
  unfold freshEntryState
  by_cases hb : name ≠ "__builtins__"
  · rw [if_pos hb, containsModule_importAllBuiltinsInto]
    exact containsModule_insertModule st name
  · rw [if_neg hb]
    exact containsModule_insertModule st name

/-- C10: module loading is atomic with respect to the registry.  A
failed load leaves no registry entry for the name (so a later import
would re-enter the loading path); a name already present makes
`LoadModule` succeed immediately with the state untouched, whatever
loader is supplied — the loader is not re-run; and a successful fresh
load leaves the entry present, provided the loader body preserves the
entry it was given (loaders can only erase entries for the distinct
fresh names of their own nested failed imports). -/
theorem loadModule_registry_atomic
    (loaders : String → Option (ModuleState → ModuleState × Bool))
    (fileLoad : String → ModuleState → ModuleState × Bool)
    (st : ModuleState) (name : String) :
    (∀ st', loadModule loaders fileLoad st name = (st', false) →
      containsModule st' name = false) ∧
    (containsModule st name = true →
      ∀ loaders' fileLoad', loadModule loaders' fileLoad' st name = (st, true)) ∧
    ((∀ s : ModuleState, containsModule s name = true →
        containsModule (runLoader loaders fileLoad name s).1 name = true) →
      ∀ st', loadModule loaders fileLoad st name = (st', true) →
        containsModule st' name = true) := by
  refine ⟨?_, ?_, ?_⟩
  · intro st' hrun
    unfold loadModule at hrun
    by_cases hc : containsModule st name
    · simp [hc] at hrun
    · simp only [hc, Bool.false_eq_true, if_false] at hrun
      rcases hres : runLoader loaders fileLoad name (freshEntryState st name) with ⟨s4, b⟩
      rw [hres] at hrun
      cases b with
      | true => simp at hrun
      | false =>
        simp only [Bool.false_eq_true, if_false, Prod.mk.injEq] at hrun
        rw [← hrun.1]
        exact containsModule_eraseModule _ name
  · intro hc loaders' fileLoad'
    unfold loadModule
    simp [hc]
  · intro hpres st' hrun
    unfold loadModule at hrun
    by_cases hc : containsModule st name
    · simp only [hc, if_true, Prod.mk.injEq] at hrun
      rw [← hrun.1]
      exact hc
    · simp only [hc, Bool.false_eq_true, if_false] at hrun
      rcases hres : runLoader loaders fileLoad name (freshEntryState st name) with ⟨s4, b⟩
      rw [hres] at hrun
      have hs4 : containsModule s4 name = true := by
        have := hpres _ (containsModule_freshEntryState st name)
        rw [hres] at this
        exact this
      cases b with
      | false => simp at hrun
      | true =>
        simp only [if_true, Prod.mk.injEq] at hrun
        rw [← hrun.1]
        exact hs4

/-- The loaders used by the module-loading witness: module "m" has a
loader that binds one global and succeeds; module "bad" has a loader
that fails. -/
def exLoaders : String → Option (ModuleState → ModuleState × Bool) :=
  fun n =>
    if n = "m" then some (fun s => (setGlobal s "x" 1, true))
    else if n = "bad" then some (fun s => (s, false))
    else none

/-- The initial registry for the module-loading witness: only
`__builtins__` is loaded. -/
def exModState : ModuleState :=
  ⟨[("__builtins__", [("print", 9)])], ["__main__"]⟩

/-- Witness for C10: loading "bad" fails and leaves no entry for "bad";
loading "m" succeeds and leaves its entry; re-loading "m" afterwards
returns immediately with the state untouched, under loaders that could
not be the ones that ran. -/
theorem loadModule_registry_atomic_witness :
    containsModule (loadModule exLoaders (fun _ s => (s, false)) exModState "bad").1 "bad"
      = false ∧
    containsModule (loadModule exLoaders (fun _ s => (s, false)) exModState "m").1 "m"
      = true ∧
    loadModule (fun _ => none) (fun _ s => (s, false))
        (loadModule exLoaders (fun _ s => (s, false)) exModState "m").1 "m"
      = ((loadModule exLoaders (fun _ s => (s, false)) exModState "m").1, true) := by
  have h := loadModule_registry_atomic exLoaders (fun _ s => (s, false)) exModState "bad"
  have h2 := loadModule_registry_atomic exLoaders (fun _ s => (s, false)) exModState "m"
  have hbad := h.1 (loadModule exLoaders (fun _ s => (s, false)) exModState "bad").1 (by rfl)
  have hm : containsModule (loadModule exLoaders (fun _ s => (s, false)) exModState "m").1 "m"
      = true := by
    refine h2.2.2 ?_ (loadModule exLoaders (fun _ s => (s, false)) exModState "m").1 (by rfl)
    intro s hs
    show containsModule (setGlobal s "x" 1) "m" = true
    rw [containsModule_setGlobal]
    exact hs
  have h3 := loadModule_registry_atomic (fun _ => none) (fun _ s => (s, false))
    (loadModule exLoaders (fun _ s => (s, false)) exModState "m").1 "m"
  exact ⟨hbad, hm, h3.2.1 hm (fun _ => none) (fun _ s => (s, false))⟩

/-! ### The garbage collector (`Wg_CollectGarbage`) -/

/-- The kind-specific payload of an object as the collector's traversal
sees it: container elements, a function's bound self, or a class's
bases together with the entries of its instance-attribute template. -/
inductive ObjKind where
  | tupleK (elems : List ObjId)
  | listK (elems : List ObjId)
  | mapK (entries : List (ObjId × ObjId))
  | setK (elems : List ObjId)
  | funcK (self : Option ObjId)
  | classK (bases : List ObjId) (instanceAttrs : List ObjId)
  | otherK

/-- One heap object as the collector's traversal sees it: its kind, the
entries of its own attribute table (`attributes.ForEach`), and its
linked-references list. -/
structure GcObj where
  kind : ObjKind
  attributes : List ObjId
  references : List ObjId

/-- The traversal edges of one object in `Wg_CollectGarbage`
(wings.cpp 1359-1395), in source order: tuple/list elements, map keys
and values, set elements, a function's bound self, a class's bases and
instance-attribute-template entries; then the local attribute-table
entries; then the linked-references list. -/
def gcSucc (heap : ObjId → GcObj) (o : ObjId) : List ObjId :=
  (match (heap o).kind with
    | .tupleK es => es
    | .listK es => es
    | .mapK entries => entries.foldr (fun p acc => p.1 :: p.2 :: acc) []
    | .setK es => es
    | .funcK self => self.toList
    | .classK bases instanceAttrs => bases ++ instanceAttrs
    | .otherK => []) ++ (heap o).attributes ++ (heap o).references

/-- The mark loop of `Wg_CollectGarbage` (wings.cpp 1352-1397): a
worklist (the list head plays the role of the stack top popped by
`pop_back`) and the `traversed` set (kept as a list).  Each iteration
pops one object; an untraversed object is recorded and its successors
are pushed.  The fuel bounds the number of iterations; `none` means the
loop was still running. -/
def gcMark (heap : ObjId → GcObj) : Nat → List ObjId → List ObjId → Option (List ObjId)
  | _, [], traversed => some traversed
  | 0, _ :: _, _ => none
  | fuel+1, o :: rest, traversed =>
    if o ∈ traversed then gcMark heap fuel rest traversed
    else gcMark heap fuel (gcSucc heap o ++ rest) (o :: traversed)

/-- The slice of `Wg_Context` that `Wg_CollectGarbage` reads and
writes: the root sources and the arena (`mem`, as the list of object
identifiers it holds). -/
structure GcContext where
  currentException : Option ObjId
  protectedObjects : List ObjId
  globals : List (List ObjId)
  kwargs : List (Option ObjId)
  builtins : List (Option ObjId)
  argv : Option ObjId
  mem : List ObjId
  lastObjectCountAfterGC : Nat
  deriving DecidableEq

/-- The root set gathered by `Wg_CollectGarbage` (wings.cpp 1334-1349),
in source order: the current exception, the protection multiset, every
module's globals, the non-null kwargs stack entries, the non-null
builtin objects, and the argv tuple. -/
def gcRoots (ctx : GcContext) : List ObjId :=
  ctx.currentException.toList ++ ctx.protectedObjects ++ ctx.globals.flatten
    ++ ctx.kwargs.filterMap id ++ ctx.builtins.filterMap id ++ ctx.argv.toList

/-- Function `Wg_CollectGarbage` (wings.cpp 1331-1415): mark from the roots,
then erase from the arena every object not traversed, recording the new
live count.  Finalizers run on the dying objects before the erase; per
the finalizer contract they must not touch the context, so they have no
effect here. -/
def wgCollectGarbage (heap : ObjId → GcObj) (fuel : Nat) (ctx : GcContext) :
    Option GcContext :=
  match gcMark heap fuel (gcRoots ctx) [] with
  | none => none
  | some traversed =>
    let mem := ctx.mem.filter fun o => o ∈ traversed
    some { ctx with mem := mem, lastObjectCountAfterGC := mem.length }

/-- Reachability along the collector's traversal edges. -/
def GcReaches (heap : ObjId → GcObj) : ObjId → ObjId → Prop :=
  Relation.ReflTransGen fun a b => b ∈ gcSucc heap a

/-- The mark loop never forgets an already-traversed object. -/
theorem gcMark_subset (heap : ObjId → GcObj) :
    ∀ (fuel : Nat) (stk traversed T : List ObjId),
      gcMark heap fuel stk traversed = some T → ∀ x ∈ traversed, x ∈ T := by
  intro fuel
  induction fuel with
  | zero =>
    intro stk traversed T h x hx
    cases stk with
    | nil =>
      simp only [gcMark, Option.some.injEq] at h
      exact h ▸ hx
    | cons o rest => exact absurd h (by simp [gcMark])
  | succ fuel ih =>
    intro stk traversed T h x hx
    cases stk with
    | nil =>
      simp only [gcMark, Option.some.injEq] at h
      exact h ▸ hx
    | cons o rest =>
      rw [gcMark] at h
      by_cases ho : o ∈ traversed
      · rw [if_pos ho] at h
        exact ih rest traversed T h x hx
      · rw [if_neg ho] at h
        exact ih _ _ T h x (List.mem_cons_of_mem o hx)

/-- Everything on the mark loop's worklist ends up traversed. -/
theorem gcMark_stack_subset (heap : ObjId → GcObj) :
    ∀ (fuel : Nat) (stk traversed T : List ObjId),
      gcMark heap fuel stk traversed = some T → ∀ x ∈ stk, x ∈ T := by
  intro fuel
  induction fuel with
  | zero =>
    intro stk traversed T h x hx
    cases stk with
    | nil => exact absurd hx (List.not_mem_nil x)
    | cons o rest => exact absurd h (by simp [gcMark])
  | succ fuel ih =>
    intro stk traversed T h x hx
    cases stk with
    | nil => exact absurd hx (List.not_mem_nil x)
    | cons o rest =>
      rw [gcMark] at h
      by_cases ho : o ∈ traversed
      · rw [if_pos ho] at h
        rcases List.mem_cons.mp hx with hxo | hxr
        · exact gcMark_subset heap fuel rest traversed T h x (hxo ▸ ho)
        · exact ih rest traversed T h x hxr
      · rw [if_neg ho] at h
        rcases List.mem_cons.mp hx with hxo | hxr
        · exact gcMark_subset heap fuel _ _ T h x (hxo ▸ List.mem_cons_self o traversed)
        · exact ih _ _ T h x (List.mem_append_right _ hxr)

/-- When the mark loop finishes, the traversed set is closed under the
traversal edges, provided every already-traversed object's successors
were traversed or still on the worklist — which holds vacuously for the
empty initial traversed set. -/
theorem gcMark_closed (heap : ObjId → GcObj) :
    ∀ (fuel : Nat) (stk traversed T : List ObjId),
      gcMark heap fuel stk traversed = some T →
      (∀ o ∈ traversed, ∀ s ∈ gcSucc heap o, s ∈ traversed ∨ s ∈ stk) →
      ∀ o ∈ T, ∀ s ∈ gcSucc heap o, s ∈ T := by
  intro fuel
  induction fuel with
  | zero =>
    intro stk traversed T h hinv o ho s hs
    cases stk with
    | nil =>
      simp only [gcMark, Option.some.injEq] at h
      subst h
      rcases hinv o ho s hs with hin | hin
      · exact hin
      · exact absurd hin (List.not_mem_nil s)
    | cons x rest => exact absurd h (by simp [gcMark])
  | succ fuel ih =>
    intro stk traversed T h hinv o ho s hs
    cases stk with
    | nil =>
      simp only [gcMark, Option.some.injEq] at h
      subst h
      rcases hinv o ho s hs with hin | hin
      · exact hin
      · exact absurd hin (List.not_mem_nil s)
    | cons x rest =>
      rw [gcMark] at h
      by_cases hx : x ∈ traversed
      · rw [if_pos hx] at h
        refine ih rest traversed T h ?_ o ho s hs
        intro p hp q hq
        rcases hinv p hp q hq with hq' | hq'
        · exact Or.inl hq'
        · rcases List.mem_cons.mp hq' with hqx | hqr
          · exact Or.inl (hqx ▸ hx)
          · exact Or.inr hqr
      · rw [if_neg hx] at h
        refine ih _ _ T h ?_ o ho s hs
        intro p hp q hq
        rcases List.mem_cons.mp hp with hpx | hpt
        · subst hpx
          exact Or.inr (List.mem_append_left rest hq)
        · rcases hinv p hpt q hq with hq' | hq'
          · exact Or.inl (List.mem_cons_of_mem x hq')
          · rcases List.mem_cons.mp hq' with hqx | hqr
            · exact Or.inl (hqx ▸ List.mem_cons_self x traversed)
            · exact Or.inr (List.mem_append_right _ hqr)

/-- A completed mark loop reaches every object reachable from its
worklist. -/
theorem gcMark_complete (heap : ObjId → GcObj) (fuel : Nat) (stk T : List ObjId)
    (h : gcMark heap fuel stk [] = some T) (r v : ObjId)
    (hr : r ∈ stk) (hreach : GcReaches heap r v) : v ∈ T := by
  induction hreach with
  | refl => exact gcMark_stack_subset heap fuel stk [] T h r hr
  | tail _ hstep ih =>
    exact gcMark_closed heap fuel stk [] T h
      (fun o ho => absurd ho (List.not_mem_nil o)) _ ih _ hstep

/-- C1: every object reachable from a root when `Wg_CollectGarbage` is
invoked is still present in the arena when it returns. -/
theorem collectGarbage_preserves_reachable (heap : ObjId → GcObj) (fuel : Nat)
    (ctx ctx' : GcContext) (r v : ObjId)
    (hrun : wgCollectGarbage heap fuel ctx = some ctx')
    (hroot : r ∈ gcRoots ctx) (hreach : GcReaches heap r v) (hmem : v ∈ ctx.mem) :
    v ∈ ctx'.mem := by
  unfold wgCollectGarbage at hrun
  rcases hT : gcMark heap fuel (gcRoots ctx) [] with _ | T
  · rw [hT] at hrun
    exact absurd hrun (by simp)
  · rw [hT] at hrun
    simp only [Option.some.injEq] at hrun
    have hv : v ∈ T := gcMark_complete heap fuel (gcRoots ctx) T hT r v hroot hreach
    rw [← hrun]
    simp only [List.mem_filter]
    exact ⟨hmem, by simpa using hv⟩

/-- The heap for the collection witness: object 0 is a list holding
object 1; object 1 is an instance whose attribute table holds object 3;
objects 2 and 3 carry nothing. -/
def exHeap : ObjId → GcObj :=
  fun o =>
    if o = 0 then ⟨.listK [1], [], []⟩
    else if o = 1 then ⟨.otherK, [3], []⟩
    else ⟨.otherK, [], []⟩

/-- The context for the collection witness: object 0 is a global, the
arena holds objects 0 to 3, and object 2 is garbage. -/
def exGcCtx : GcContext :=
  ⟨none, [], [[0]], [], [], none, [0, 1, 2, 3], 0⟩

/-- Witness for C1: collecting the concrete context completes within
fuel 10 and sweeps only the unreachable object 2; object 3, reachable
from the root 0 through the list element 1 and its attribute entry,
survives in the arena. -/
theorem collectGarbage_preserves_reachable_witness :
    wgCollectGarbage exHeap 10 exGcCtx
      = some ⟨none, [], [[0]], [], [], none, [0, 1, 3], 3⟩ ∧
    0 ∈ gcRoots exGcCtx ∧ 3 ∈ exGcCtx.mem ∧
    3 ∈ (⟨none, [], [[0]], [], [], none, [0, 1, 3], 3⟩ : GcContext).mem := by
  have hreach : GcReaches exHeap 0 3 :=
    Relation.ReflTransGen.tail
      (Relation.ReflTransGen.single (show (1 : ObjId) ∈ gcSucc exHeap 0 by decide))
      (show (3 : ObjId) ∈ gcSucc exHeap 1 by decide)
  have hrun : wgCollectGarbage exHeap 10 exGcCtx
      = some ⟨none, [], [[0]], [], [], none, [0, 1, 3], 3⟩ := by decide
  refine ⟨hrun, by decide, by decide, ?_⟩
  exact collectGarbage_preserves_reachable exHeap 10 exGcCtx
    ⟨none, [], [[0]], [], [], none, [0, 1, 3], 3⟩ 0 3 hrun (by decide) hreach (by decide)

end Wings
